import Mathlib

/-!
Verification of the LoopOptimizer pipeline (src/LoopOptimizer/loop_optimizer.js).

The embedding models the JavaScript values the pipeline manipulates as a
JSON value type (the pipeline only ever inspects its inputs through
`JSON.stringify`, property reads/writes, truthiness tests and `typeof`
checks, so JSON values are the relevant value space; JS-only values such
as `undefined` inside records and functions are outside the model space).
Machine time (`new Date().toISOString()`) and randomness (`Math.random`)
are passed in as explicit parameters.  The asynchronous wrapper
(`Promise` + `setTimeout`) only delays the already-computed value, so the
result value is modelled directly.
-/

set_option autoImplicit false

/-- A JSON value: the value space of the animation records the optimizer
processes.  Object fields are kept in insertion order, as JavaScript does
for string keys. Numbers are restricted to integers (the pipeline never
creates non-integer numbers inside records it serializes). -/
inductive Json where
  | null
  | bool (b : Bool)
  | num (n : Int)
  | str (s : String)
  | arr (elems : List Json)
  | obj (fields : List (String × Json))

/-- JavaScript truthiness of a JSON value (`!v` is `true` exactly on the
falsy values: `null`, `false`, `0`, `""`). Arrays and objects are always
truthy. -/
def Json.truthy : Json → Bool
  | .null => false
  | .bool b => b
  | .num n => n != 0
  | .str s => s != ""
  | .arr _ => true
  | .obj _ => true

/-- Whether `typeof v === 'object'` holds in JavaScript: true for `null`,
arrays and plain objects. -/
def Json.typeofObject : Json → Bool
  | .null => true
  | .arr _ => true
  | .obj _ => true
  | _ => false

/-- The spec's notion of a structured record: a non-null JavaScript object
value (plain object or array).  Used to compare the validation check in
`_analyzeLoop` against the spec's wording. -/
def isStructuredRecord : Json → Bool
  | .obj _ => true
  | .arr _ => true
  | _ => false

/-- One hexadecimal digit, lower case, as produced by JS `\u00XX` escapes. -/
def hexDigit (n : Nat) : Char :=
  if n < 10 then Char.ofNat (48 + n) else Char.ofNat (87 + n)

/-- Four-digit lower-case hexadecimal rendering of a code point, as in the
`\uXXXX` escapes of `JSON.stringify`. -/
def hex4 (n : Nat) : String :=
  String.mk [hexDigit (n / 4096 % 16), hexDigit (n / 256 % 16),
             hexDigit (n / 16 % 16), hexDigit (n % 16)]

/-- The escape `JSON.stringify` applies to one character inside a string
literal: `"` and `\` are backslash-escaped, the named control escapes
`\b \f \n \r \t` are used where they exist, all other control characters
become `\u00XX`, and every other character (including non-ASCII) is
emitted literally. -/
def escapeChar (c : Char) : String :=
  if c = '"' then "\\\""
  else if c = '\\' then "\\\\"
  else if c = '\x08' then "\\b"
  else if c = '\x0c' then "\\f"
  else if c = '\n' then "\\n"
  else if c = '\r' then "\\r"
  else if c = '\t' then "\\t"
  else if c.toNat < 32 then "\\u" ++ hex4 c.toNat
  else String.singleton c

/-- A JSON string literal as produced by `JSON.stringify`. -/
def jsonQuote (s : String) : String :=
  "\"" ++ String.join (s.data.map escapeChar) ++ "\""

mutual

/-- `JSON.stringify` on a JSON value (no replacer, no indentation), the
serialization the optimizer uses both for frame comparison and for size
estimation. -/
def Json.stringify : Json → String
  | .null => "null"
  | .bool true => "true"
  | .bool false => "false"
  | .num n => toString n
  | .str s => jsonQuote s
  | .arr xs => "[" ++ stringifyList xs ++ "]"
  | .obj kvs => "\x7b" ++ stringifyObj kvs ++ "\x7d"

/-- Comma-separated serialization of array elements. -/
def stringifyList : List Json → String
  | [] => ""
  | [x] => x.stringify
  | x :: y :: rest => x.stringify ++ "," ++ stringifyList (y :: rest)

/-- Comma-separated serialization of object fields in insertion order. -/
def stringifyObj : List (String × Json) → String
  | [] => ""
  | [(k, v)] => jsonQuote k ++ ":" ++ v.stringify
  | (k, v) :: p :: rest => jsonQuote k ++ ":" ++ v.stringify ++ "," ++ stringifyObj (p :: rest)

end

/-- Length of a string in UTF-16 code units: what the JavaScript `.length`
property of a string reports (code points above the basic multilingual
plane count twice). -/
def utf16Length (s : String) : Nat :=
  s.data.foldl (fun n c => n + (if c.toNat ≤ 65535 then 1 else 2)) 0

/-- Length of a string in UTF-8 bytes: the serialized size in bytes the
spec speaks of. -/
def utf8Len (s : String) : Nat :=
  s.data.foldl (fun n c => n + c.utf8Size) 0

/-- The JavaScript `.length` property of a JSON value: element count for
arrays, UTF-16 length for strings, `undefined` (modelled as `none`)
otherwise. -/
def jsLength : Json → Option Nat
  | .arr xs => some xs.length
  | .str s => some (utf16Length s)
  | _ => none

/-- First-match lookup in an object's field list, the JS property read
(objects built by the program never carry duplicate keys). -/
def lookupField : List (String × Json) → String → Option Json
  | [], _ => none
  | (k, v) :: rest, key => if k = key then some v else lookupField rest key

/-- JS property read `j.key`: a value for object fields, `undefined`
(modelled as `none`) otherwise.  Reads of named properties on arrays and
primitives yield `undefined`. -/
def Json.getField (j : Json) (key : String) : Option Json :=
  match j with
  | .obj kvs => lookupField kvs key
  | _ => none

/-- JS property write on a field list: an existing key keeps its position
and gets the new value, a new key is appended. -/
def setFieldList : List (String × Json) → String → Json → List (String × Json)
  | [], key, v => [(key, v)]
  | (k, w) :: rest, key, v =>
    if k = key then (k, v) :: rest else (k, w) :: setFieldList rest key v

/-- JS property write `j.key = v` on a JSON value.  On non-objects the
write is modelled as a no-op: the pipeline only ever writes to values it
has checked or created as objects, except for the degenerate array-input
case, where the written property would be invisible to every later
serialization anyway. -/
def Json.setField (j : Json) (key : String) (v : Json) : Json :=
  match j with
  | .obj kvs => .obj (setFieldList kvs key v)
  | other => other

mutual

/-- `JSON.parse(JSON.stringify(x))`: on JSON values the round trip
rebuilds the value structurally, sharing nothing with the input.  The
model space contains no `undefined` members and no `NaN`, the only values
on which the JS round trip is lossy. -/
def deepCopy : Json → Json
  | .null => .null
  | .bool b => .bool b
  | .num n => .num n
  | .str s => .str s
  | .arr xs => .arr (deepCopyList xs)
  | .obj kvs => .obj (deepCopyObj kvs)

/-- Copy of an array's element list. -/
def deepCopyList : List Json → List Json
  | [] => []
  | x :: xs => deepCopy x :: deepCopyList xs

/-- Copy of an object's field list. -/
def deepCopyObj : List (String × Json) → List (String × Json)
  | [] => []
  | (k, v) :: rest => (k, deepCopy v) :: deepCopyObj rest

end

/-- The loop of `_identifyRepetitiveFrames`: starting at index `i`, walk
consecutive frame pairs and record the index of every frame whose
serialization equals its predecessor's. -/
def repScan : List Json → Nat → List Nat
  | x :: y :: rest, i =>
    if Json.stringify y = Json.stringify x then i :: repScan (y :: rest) (i + 1)
    else repScan (y :: rest) (i + 1)
  | _, _ => []

/-- `_identifyRepetitiveFrames(frames)`: for an array, the indices `i ≥ 1`
with `JSON.stringify(frames[i]) === JSON.stringify(frames[i-1])`, in scan
order; for any non-array input the `Array.isArray` guard yields `[]`. -/
def identifyRepetitiveFrames : Json → List Nat
  | .arr xs => repScan xs 1
  | _ => []

/-- `_identifyRedundantProperties(animationData)`: the placeholder always
returns an empty list. -/
def identifyRedundantProperties (_animationData : Json) : List Json := []

/-- The analyzer's optimization-potential record. -/
structure OptimizationPotential where
  sizeReductionPotential : String
  performanceImprovementPotential : String
  estimatedSizeReduction : Nat
deriving DecidableEq

/-- `_estimateOptimizationPotential(animationData)`.  `dataSize` is
`JSON.stringify(animationData).length`, the length of the serialization in
UTF-16 code units.  `Math.floor(dataSize * 0.3)` is modelled as the exact
`3 * dataSize / 10`: the relative error of the double nearest to 0.3 is
below half an ulp of the product for every `dataSize` below `2 ^ 51`, so
the double computation rounds to the same integer. -/
def estimateOptimizationPotential (animationData : Json) : OptimizationPotential :=
  let dataSize := utf16Length (Json.stringify animationData)
  { sizeReductionPotential :=
      if dataSize > 10000 then "high" else if dataSize > 1000 then "medium" else "low",
    performanceImprovementPotential := "medium",
    estimatedSizeReduction := 3 * dataSize / 10 }

/-- The value of `animationData.duration || frameCount / 30`: either the
truthy `duration` field as it is, or the derived quotient (a rational,
since 30 may not divide the frame count), or `NaN` when the frame count
itself was `undefined`. -/
inductive DurVal where
  | js (v : Json)
  | frac (q : ℚ)
  | nan

/-- Numeric value of the analyzer's duration, when it has one (the model
of comparing the duration against a number). -/
def DurVal.asRat : DurVal → Option ℚ
  | .js (.num n) => some (n : ℚ)
  | .js _ => none
  | .frac q => some q
  | .nan => none

/-- `frameCount / 30` with an `undefined` frame count producing `NaN`. -/
def derivedDuration : Option Nat → DurVal
  | some n => .frac ((n : ℚ) / 30)
  | none => .nan

/-- The analysis report `_analyzeLoop` returns. -/
structure Analysis where
  frameCount : Option Nat
  duration : DurVal
  repetitiveFrames : List Nat
  redundantProperties : List Json
  estimatedOptimizationPotential : OptimizationPotential

/-- `animationData.frames || []`: the `frames` field when present and
truthy, an empty array otherwise. -/
def framesOrEmpty : Option Json → Json
  | some v => if v.truthy then v else .arr []
  | none => .arr []

/-- `_analyzeLoop` on a present argument: the validity check
`!animationData || typeof animationData !== 'object'` throws
`Invalid animation data`; otherwise the report is assembled. -/
def analyzeLoopJ (animationData : Json) : Except String Analysis :=
  if animationData.truthy && animationData.typeofObject then
    let frames := framesOrEmpty (animationData.getField "frames")
    let frameCount := jsLength frames
    .ok
      { frameCount := frameCount,
        duration :=
          match animationData.getField "duration" with
          | some v => if v.truthy then .js v else derivedDuration frameCount
          | none => derivedDuration frameCount,
        repetitiveFrames := identifyRepetitiveFrames frames,
        redundantProperties := identifyRedundantProperties animationData,
        estimatedOptimizationPotential := estimateOptimizationPotential animationData }
  else .error "Invalid animation data"

/-- `_analyzeLoop` with an absent (`undefined`) argument also failing the
`!animationData` half of the validity check. -/
def analyzeLoop : Option Json → Except String Analysis
  | none => Except.error "Invalid animation data"
  | some j => analyzeLoopJ j

/-- The effective options after merging defaults: both recognized keys
resolved. -/
structure OptionsR where
  quality : Int
  enableCompression : Bool
deriving DecidableEq

/-- A configuration or per-call options object: each recognized key may be
present or absent (`firebaseConfig` is never read by the modelled code).
-/
structure ConfigP where
  quality : Option Int
  enableCompression : Option Bool

/-- The effective options as a JSON object, as stored into
`metadata.optimizationOptions`. -/
def optionsToJson (o : OptionsR) : Json :=
  .obj [("quality", .num o.quality), ("enableCompression", .bool o.enableCompression)]

/-- The spread merge `{quality: 8, enableCompression: true, ...config}` of
the constructor: a key present in `config` wins over the default. -/
def mkConfig (c : ConfigP) : OptionsR :=
  { quality := c.quality.getD 8, enableCompression := c.enableCompression.getD true }

/-- The optimizer instance produced by the constructor: merged defaults
and the `isInitialized` flag set. -/
structure LoopOptimizerS where
  config : OptionsR
  isInitialized : Bool

/-- `new LoopOptimizer(config)`. -/
def mkLoopOptimizer (c : ConfigP) : LoopOptimizerS :=
  { config := mkConfig c, isInitialized := true }

/-- The spread merge `{...this.config, ...options}` of `optimizeLoop`: a
key present in the per-call options wins over the instance configuration.
-/
def mergeOptions (cfg : OptionsR) (o : ConfigP) : OptionsR :=
  { quality := o.quality.getD cfg.quality,
    enableCompression := o.enableCompression.getD cfg.enableCompression }

/-- `_compressRepetitiveFrames(frames, repetitiveIndices)`: on a non-array
or empty `frames`, or empty `repetitiveIndices`, the input is returned;
otherwise the elements whose index `includes` in `repetitiveIndices` are
filtered out. -/
def compressRepetitiveFrames (frames : Json) (repetitiveIndices : List Nat) : Json :=
  match frames with
  | .arr xs =>
    if xs.length = 0 ∨ repetitiveIndices = [] then .arr xs
    else .arr (((xs.enum).filter (fun p => !(repetitiveIndices.contains p.1))).map (fun p => p.2))
  | other => other

/-- The metadata block of `_performLocalOptimizations`:
`optimized.metadata = optimized.metadata || {}` followed by the three
in-place writes `optimized`, `optimizationDate`, `optimizationOptions`. -/
def setMetadataFields (optimized : Json) (options : OptionsR) (now : String) : Json :=
  let md0 :=
    match optimized.getField "metadata" with
    | some v => if v.truthy then v else .obj []
    | none => .obj []
  let md1 := md0.setField "optimized" (.bool true)
  let md2 := md1.setField "optimizationDate" (.str now)
  let md3 := md2.setField "optimizationOptions" (optionsToJson options)
  optimized.setField "metadata" md3

/-- `_performLocalOptimizations(animationData, analysis, options)` with
the call-time timestamp passed in as `now`. -/
def performLocalOptimizations (animationData : Json) (analysis : Analysis)
    (options : OptionsR) (now : String) : Json :=
  let optimized := deepCopy animationData
  let optimized :=
    if 0 < analysis.repetitiveFrames.length ∧ options.enableCompression then
      optimized.setField "frames"
        (compressRepetitiveFrames (framesOrEmpty (optimized.getField "frames"))
          analysis.repetitiveFrames)
    else optimized
  setMetadataFields optimized options now

/-- The fields a JSON value contributes under object spread
`{...locallyOptimized, ...}`: its own fields for an object, index-keyed
entries for an array, character entries for a string, nothing for other
primitives. -/
def jsSpreadFields : Json → List (String × Json)
  | .obj kvs => kvs
  | .arr xs => xs.enum.map (fun p => (toString p.1, p.2))
  | .str s => s.data.enum.map (fun p => (toString p.1, .str (String.singleton p.2)))
  | _ => []

/-- Sequential property writes, as an object literal performs them left to
right. -/
def setFieldsList (base : List (String × Json)) : List (String × Json) → List (String × Json)
  | [] => base
  | (k, v) :: rest => setFieldsList (setFieldList base k v) rest

/-- The result literal of `optimizeLoop`'s simulated cloud step:
`{...locallyOptimized, optimized: true, optimizationLevel, sizeReduction,
timestamp}`, with `rand` standing for `Math.floor(Math.random() * 30)`
(a number in `[0, 30)`) and `nowDate` for the completion timestamp. -/
def finalize (locallyOptimized : Json) (optimizationOptions : OptionsR)
    (rand : Nat) (nowDate : String) : Json :=
  .obj (setFieldsList (jsSpreadFields locallyOptimized)
    [("optimized", .bool true),
     ("optimizationLevel", .num optimizationOptions.quality),
     ("sizeReduction", .str (toString (rand + 10) ++ "%")),
     ("timestamp", .str nowDate)])

/-- `optimizeLoop(animationData, options)`: the initialization check, the
option merge, and the Analyzer → Local Transformer → Result Finalizer
chain.  The absent-argument case fails the analyzer's `!animationData`
check. -/
def optimizeLoop (self : LoopOptimizerS) (animationData : Option Json) (options : ConfigP)
    (now nowDate : String) (rand : Nat) : Except String Json :=
  if self.isInitialized = false then Except.error "LoopOptimizer not properly initialized"
  else
    let optimizationOptions := mergeOptions self.config options
    match animationData with
    | none => Except.error "Invalid animation data"
    | some j =>
      match analyzeLoopJ j with
      | .error e => Except.error e
      | .ok analysis =>
        Except.ok (finalize (performLocalOptimizations j analysis optimizationOptions now)
          optimizationOptions rand nowDate)

/-- The Local Transformer as a state action over the caller's animation
object: the caller's object is the state, every JS statement that reads it
is a `get`, and the writes of the function body all target the local deep
copy `optimized`, so no statement writes the state. -/
def performLocalOptimizationsST (analysis : Analysis) (options : OptionsR)
    (now : String) : StateM Json Json := do
  let animationData ← get
  let optimized := deepCopy animationData
  let optimized :=
    if 0 < analysis.repetitiveFrames.length ∧ options.enableCompression then
      optimized.setField "frames"
        (compressRepetitiveFrames (framesOrEmpty (optimized.getField "frames"))
          analysis.repetitiveFrames)
    else optimized
  pure (setMetadataFields optimized options now)

/-- The Analyzer as a state action over the caller's animation object: it
only reads the state. -/
def analyzeLoopST : StateM Json (Except String Analysis) := do
  let animationData ← get
  pure (analyzeLoopJ animationData)

/-- `optimizeLoop` as a state action over the caller's animation object
(present by assumption — the state holds it): all three stages threaded
over the caller's object. -/
def optimizeLoopST (self : LoopOptimizerS) (options : ConfigP)
    (now nowDate : String) (rand : Nat) : StateM Json (Except String Json) :=
  if self.isInitialized = false then pure (Except.error "LoopOptimizer not properly initialized")
  else do
    let optimizationOptions := mergeOptions self.config options
    let r ← analyzeLoopST
    match r with
    | .error e => pure (Except.error e)
    | .ok analysis => do
      let locallyOptimized ← performLocalOptimizationsST analysis optimizationOptions now
      pure (Except.ok (finalize locallyOptimized optimizationOptions rand nowDate))

/-- The subsequence the spec describes: the frames whose index is not in
`repetitiveFrames`, in their original relative order.  Stated from the
spec's words, for comparison with `compressRepetitiveFrames`. -/
def framesSubseqSpec (xs : List Json) (rep : List Nat) : List Json :=
  ((xs.enum).filter (fun p => decide (p.1 ∉ rep))).map (fun p => p.2)

/-- A concrete animation used to instantiate the general theorems: three
identical frames and an explicit duration. -/
def animW : Json :=
  .obj [("frames", .arr [.null, .null, .null]), ("duration", .num 1)]

/-- The analysis report the analyzer produces for `animW` (checked by
definitional evaluation where used). -/
def analysisW : Analysis :=
  { frameCount := some 3,
    duration := .js (.num 1),
    repetitiveFrames := [1, 2],
    redundantProperties := [],
    estimatedOptimizationPotential :=
      { sizeReductionPotential := "low",
        performanceImprovementPotential := "medium",
        estimatedSizeReduction := 12 } }

mutual

theorem deepCopy_eq : ∀ j, deepCopy j = j
  | .null => rfl
  | .bool _ => rfl
  | .num _ => rfl
  | .str _ => rfl
  | .arr xs => by rw [deepCopy, deepCopyList_eq]
  | .obj kvs => by rw [deepCopy, deepCopyObj_eq]

theorem deepCopyList_eq : ∀ l, deepCopyList l = l
  | [] => rfl
  | x :: xs => by rw [deepCopyList, deepCopy_eq, deepCopyList_eq]

theorem deepCopyObj_eq : ∀ l, deepCopyObj l = l
  | [] => rfl
  | (k, v) :: rest => by rw [deepCopyObj, deepCopy_eq, deepCopyObj_eq]

end

theorem lookupField_setFieldList_self (l : List (String × Json)) (k : String) (v : Json) :
    lookupField (setFieldList l k v) k = some v := by
  induction l with
  | nil => simp [setFieldList, lookupField]
  | cons p rest ih =>
    obtain ⟨k', w⟩ := p
    by_cases h : k' = k
    · simp [setFieldList, lookupField, h]
    · simp [setFieldList, lookupField, h, ih]

theorem lookupField_setFieldList_ne (l : List (String × Json)) (k : String) (v : Json)
    (k' : String) (hne : k' ≠ k) :
    lookupField (setFieldList l k v) k' = lookupField l k' := by
  induction l with
  | nil => simp [setFieldList, lookupField, Ne.symm hne]
  | cons p rest ih =>
    obtain ⟨k₀, w⟩ := p
    by_cases h : k₀ = k
    · subst h
      simp [setFieldList, lookupField, Ne.symm hne]
    · simp [setFieldList, lookupField, h, ih]

theorem getField_setField_obj (kvs : List (String × Json)) (k : String) (v : Json) :
    (Json.setField (.obj kvs) k v).getField k = some v := by
  simp [Json.setField, Json.getField, lookupField_setFieldList_self]

theorem getField_setField_ne (j : Json) (k : String) (v : Json) (k' : String) (hne : k' ≠ k) :
    (j.setField k v).getField k' = j.getField k' := by
  cases j <;> simp [Json.setField, Json.getField, lookupField_setFieldList_ne _ _ _ _ hne]

theorem setMetadataFields_getField_ne (j : Json) (o : OptionsR) (now : String)
    (k : String) (hk : k ≠ "metadata") :
    (setMetadataFields j o now).getField k = j.getField k := by
  unfold setMetadataFields
  exact getField_setField_ne _ _ _ _ hk

theorem repScan_shift : ∀ (l : List Json) (k : Nat),
    repScan l (k + 1) = (repScan l k).map (fun i => i + 1)
  | [], _ => rfl
  | [_], _ => rfl
  | x :: y :: rest, k => by
    rw [repScan, repScan]
    by_cases h : Json.stringify y = Json.stringify x <;>
      simp [h, repScan_shift (y :: rest) (k + 1)]

theorem repScan_zero_mem : ∀ (l : List Json) (j : Nat),
    j ∈ repScan l 0 ↔
      (j + 1 < l.length ∧
        Json.stringify (l.getD (j + 1) .null) = Json.stringify (l.getD j .null))
  | [], j => by simp [repScan]
  | [x], j => by simp [repScan]
  | x :: y :: rest, j => by
    rw [repScan, repScan_shift]
    cases j with
    | zero =>
      by_cases h : Json.stringify y = Json.stringify x <;>
        simp [h, List.getD]
    | succ j' =>
      have ih := repScan_zero_mem (y :: rest) j'
      by_cases h : Json.stringify y = Json.stringify x <;>
        simpa [h, List.getD, Nat.succ_lt_succ_iff] using ih

theorem repScan_zero_pairwise : ∀ l : List Json, List.Pairwise (· < ·) (repScan l 0)
  | [] => by simp [repScan]
  | [x] => by simp [repScan]
  | x :: y :: rest => by
    rw [repScan, repScan_shift]
    have ih := repScan_zero_pairwise (y :: rest)
    by_cases h : Json.stringify y = Json.stringify x
    · simp only [h, if_pos]
      refine List.pairwise_cons.2 ⟨?_, ?_⟩
      · intro b hb
        simp only [List.mem_map] at hb
        obtain ⟨a, _, rfl⟩ := hb
        exact Nat.succ_pos a
      · exact (List.pairwise_map).2 (ih.imp (fun hab => Nat.succ_lt_succ hab))
    · simp only [h, if_neg, ite_false]
      exact (List.pairwise_map).2 (ih.imp (fun hab => Nat.succ_lt_succ hab))

theorem repScan_length_lt : ∀ (l : List Json) (k : Nat), l ≠ [] →
    (repScan l k).length < l.length
  | [], _, h => absurd rfl h
  | [x], _, _ => by simp [repScan]
  | x :: y :: rest, k, _ => by
    have ih := repScan_length_lt (y :: rest) (k + 1) (by simp)
    rw [repScan]
    by_cases h : Json.stringify y = Json.stringify x
    · rw [if_pos h]
      simp only [List.length_cons] at *
      omega
    · rw [if_neg h]
      simp only [List.length_cons] at *
      omega

theorem repScan_all_eq : ∀ (l : List Json) (k : Nat) (x : Json),
    (repScan (x :: l) k).length = (x :: l).length - 1 →
    ∀ a ∈ x :: l, Json.stringify a = Json.stringify x
  | [], _, x, _ => by simp
  | y :: rest, k, x, hlen => by
    rw [repScan] at hlen
    by_cases h : Json.stringify y = Json.stringify x
    · rw [if_pos h] at hlen
      simp only [List.length_cons] at hlen
      have hrec : (repScan (y :: rest) (k + 1)).length = (y :: rest).length - 1 := by
        simp only [List.length_cons] at *
        omega
      have ih := repScan_all_eq rest (k + 1) y hrec
      intro a ha
      rcases List.mem_cons.1 ha with rfl | ha'
      · rfl
      · exact (ih a ha').trans h
    · rw [if_neg h] at hlen
      have hlt := repScan_length_lt (y :: rest) (k + 1) (by simp)
      simp only [List.length_cons] at hlen hlt
      omega

theorem floor_three_tenths (s : ℕ) : Nat.floor ((3 / 10 : ℚ) * s) = 3 * s / 10 := by
  rw [div_mul_eq_mul_div]
  rw [show ((3 : ℚ) * s) = ((3 * s : ℕ) : ℚ) by push_cast; ring]
  rw [show (10 : ℚ) = ((10 : ℕ) : ℚ) by norm_num]
  rw [Nat.floor_div_nat, Nat.floor_natCast]


theorem analyzeLoop_ok_elim {j : Json} {an : Analysis} (h : analyzeLoop (some j) = .ok an) :
    an = { frameCount := jsLength (framesOrEmpty (j.getField "frames")),
           duration :=
             match j.getField "duration" with
             | some v =>
               if v.truthy then .js v
               else derivedDuration (jsLength (framesOrEmpty (j.getField "frames")))
             | none => derivedDuration (jsLength (framesOrEmpty (j.getField "frames"))),
           repetitiveFrames := identifyRepetitiveFrames (framesOrEmpty (j.getField "frames")),
           redundantProperties := identifyRedundantProperties j,
           estimatedOptimizationPotential := estimateOptimizationPotential j } := by
  simp only [analyzeLoop, analyzeLoopJ] at h
  by_cases hv : (j.truthy && j.typeofObject) = true
  · rw [if_pos hv] at h
    simp only [Except.ok.injEq] at h
    exact h.symm
  · rw [if_neg hv] at h
    simp at h

theorem analyzeLoopJ_unstructured (j : Json) (h : isStructuredRecord j = false) :
    analyzeLoopJ j = .error "Invalid animation data" := by
  cases j with
  | null => rfl
  | bool b => cases b <;> rfl
  | num n => simp [analyzeLoopJ, Json.truthy, Json.typeofObject]
  | str s => simp [analyzeLoopJ, Json.truthy, Json.typeofObject]
  | arr xs => simp [isStructuredRecord] at h
  | obj kvs => simp [isStructuredRecord] at h

/-- C1: for every frame sequence, `repetitiveFrames` is exactly the
strictly increasing list of indices `i` with `1 ≤ i < length` such that
frame `i` has the same canonical serialization as frame `i - 1`; in
particular the frames `[A, A, A, B]` yield `[1, 2]`. -/
theorem identifyRepetitiveFrames_spec (xs : List Json) :
    List.Pairwise (· < ·) (identifyRepetitiveFrames (.arr xs)) ∧
    (∀ i, i ∈ identifyRepetitiveFrames (.arr xs) ↔
      (1 ≤ i ∧ i < xs.length ∧
        Json.stringify (xs.getD i .null) = Json.stringify (xs.getD (i - 1) .null))) ∧
    identifyRepetitiveFrames (.arr [.str "A", .str "A", .str "A", .str "B"]) = [1, 2] := by
  have hshift : identifyRepetitiveFrames (.arr xs) = (repScan xs 0).map (fun i => i + 1) := by
    show repScan xs 1 = _
    simpa using repScan_shift xs 0
  refine ⟨?_, ?_, by decide⟩
  · rw [hshift]
    exact (List.pairwise_map).2 ((repScan_zero_pairwise xs).imp (fun h => Nat.succ_lt_succ h))
  · intro i
    rw [hshift]
    simp only [List.mem_map]
    constructor
    · rintro ⟨j, hj, rfl⟩
      have hm := (repScan_zero_mem xs j).1 hj
      exact ⟨Nat.succ_le_succ (Nat.zero_le j), by simpa using hm.1, by simpa using hm.2⟩
    · rintro ⟨h1, h2, h3⟩
      have hi : i - 1 + 1 = i := by omega
      refine ⟨i - 1, (repScan_zero_mem xs (i - 1)).2 ⟨by omega, by rw [hi]; exact h3⟩, hi⟩

/-- Instantiation of C1's theorem on a concrete frame list. -/
theorem identifyRepetitiveFrames_spec_witness :
    List.Pairwise (· < ·) (identifyRepetitiveFrames (.arr [Json.null, Json.null])) :=
  (identifyRepetitiveFrames_spec [Json.null, Json.null]).1

/-- C2: with the analysis produced for the animation, when
`repetitiveFrames` is non-empty and compression is enabled, the locally
transformed animation's frames are exactly the index-filtered subsequence
of the input frames (a sublist, so order is preserved); otherwise the
frames field is left unchanged. -/
theorem performLocalOptimizations_frames (a : Json) (an : Analysis)
    (opts : OptionsR) (now : String) (h : analyzeLoop (some a) = .ok an) :
    (∀ xs, a.getField "frames" = some (.arr xs) →
      an.repetitiveFrames ≠ [] → opts.enableCompression = true →
      (performLocalOptimizations a an opts now).getField "frames" =
        some (.arr (framesSubseqSpec xs an.repetitiveFrames)) ∧
      (framesSubseqSpec xs an.repetitiveFrames).Sublist xs) ∧
    (an.repetitiveFrames = [] ∨ opts.enableCompression = false →
      (performLocalOptimizations a an opts now).getField "frames" = a.getField "frames") := by
  constructor
  · intro xs hfield hrepne hec
    obtain ⟨kvs, rfl⟩ : ∃ kvs, a = Json.obj kvs := by
      cases a <;> simp [Json.getField] at hfield
      exact ⟨_, rfl⟩
    have hrep : an.repetitiveFrames = identifyRepetitiveFrames (.arr xs) := by
      rw [analyzeLoop_ok_elim h]
      simp [hfield, framesOrEmpty, Json.truthy]
    have hxs_ne : xs ≠ [] := by
      rintro rfl
      exact hrepne (by simpa [identifyRepetitiveFrames, repScan] using hrep)
    have hspec :
        compressRepetitiveFrames (framesOrEmpty ((Json.obj kvs).getField "frames"))
            an.repetitiveFrames = .arr (framesSubseqSpec xs an.repetitiveFrames) := by
      rw [hfield]
      simp only [framesOrEmpty, Json.truthy, if_pos]
      show compressRepetitiveFrames (.arr xs) an.repetitiveFrames = _
      simp only [compressRepetitiveFrames]
      rw [if_neg (by push_neg; exact ⟨by simpa using hxs_ne, hrepne⟩)]
      simp only [Json.arr.injEq, framesSubseqSpec]
      refine congrArg _ (List.filter_congr ?_)
      intro p _
      simp
    constructor
    · simp only [performLocalOptimizations]
      rw [if_pos ⟨List.length_pos.mpr hrepne, hec⟩]
      rw [setMetadataFields_getField_ne _ _ _ _ (by decide), deepCopy_eq]
      rw [hspec]
      exact getField_setField_obj kvs "frames" _
    · have hsub : ((xs.enum.filter (fun p => decide (p.1 ∉ an.repetitiveFrames))).map
          (fun p => p.2)).Sublist (xs.enum.map Prod.snd) :=
        (List.filter_sublist _).map _
      rw [List.enum_map_snd] at hsub
      exact hsub
  · intro helse
    have hcond : ¬ (0 < an.repetitiveFrames.length ∧ opts.enableCompression = true) := by
      rcases helse with hrep | hec
      · simp [hrep]
      · simp [hec]
    simp only [performLocalOptimizations]
    rw [if_neg hcond]
    rw [setMetadataFields_getField_ne _ _ _ _ (by decide), deepCopy_eq]

/-- Instantiation of C2's theorem: the three identical frames of `animW`
compress to one surviving frame. -/
theorem performLocalOptimizations_frames_witness :
    (performLocalOptimizations animW analysisW ⟨8, true⟩ "t").getField "frames" =
      some (.arr (framesSubseqSpec [Json.null, Json.null, Json.null]
        analysisW.repetitiveFrames)) ∧
    (framesSubseqSpec [Json.null, Json.null, Json.null]
      analysisW.repetitiveFrames).Sublist [Json.null, Json.null, Json.null] :=
  (performLocalOptimizations_frames animW analysisW ⟨8, true⟩ "t" rfl).1
    [Json.null, Json.null, Json.null] rfl (by decide) rfl

/-- C3 (amended): for every non-empty frame sequence the count of flagged
indices is strictly below the frame count, a count of `n - 1` forces all
frames to serialize identically, and sequences of length at most one
yield no flagged index.  For the empty sequence the count equals the
length, so the claim's unrestricted strict bound fails there. -/
theorem repetitiveFrames_count (xs : List Json) :
    (xs ≠ [] → (identifyRepetitiveFrames (.arr xs)).length < xs.length) ∧
    (xs.length ≤ 1 → identifyRepetitiveFrames (.arr xs) = []) ∧
    ((identifyRepetitiveFrames (.arr xs)).length = xs.length - 1 →
      ∀ a ∈ xs, ∀ b ∈ xs, Json.stringify a = Json.stringify b) := by
  refine ⟨fun h => repScan_length_lt xs 1 h, ?_, ?_⟩
  · intro h
    cases xs with
    | nil => rfl
    | cons x l =>
      cases l with
      | nil => rfl
      | cons y r => simp at h
  · intro h a ha b hb
    cases xs with
    | nil => exact absurd ha (List.not_mem_nil a)
    | cons x l =>
      have hx := repScan_all_eq l 1 x h
      exact (hx a ha).trans (hx b hb).symm

/-- Refutation of C3 as stated: on the empty frame sequence the number of
flagged indices (zero) is not strictly less than the length (zero). -/
theorem repetitiveFrames_count_cex :
    ¬ ((identifyRepetitiveFrames (.arr ([] : List Json))).length <
        ([] : List Json).length) := by decide

/-- Instantiation of C3's amended theorem on a concrete two-frame list. -/
theorem repetitiveFrames_count_witness :
    (identifyRepetitiveFrames (.arr [Json.null, Json.num 1])).length <
      ([Json.null, Json.num 1] : List Json).length :=
  (repetitiveFrames_count [Json.null, Json.num 1]).1 (by simp)

/-- C4: once constructed, `optimizeLoop` fails exactly on an absent
animation or one that is not a structured record (a non-null object
value), and then it fails with the analyzer's `Invalid animation data`
error, propagated unchanged; the `Except` result carries no partial
value in that case. -/
theorem optimizeLoop_invalid (cfg : ConfigP) (a : Option Json) (opts : ConfigP)
    (now nd : String) (rand : Nat) :
    ((∃ e, optimizeLoop (mkLoopOptimizer cfg) a opts now nd rand = .error e) ↔
      (a = none ∨ ∃ j, a = some j ∧ isStructuredRecord j = false)) ∧
    ((a = none ∨ ∃ j, a = some j ∧ isStructuredRecord j = false) →
      optimizeLoop (mkLoopOptimizer cfg) a opts now nd rand =
        .error "Invalid animation data") := by
  cases a with
  | none =>
    exact ⟨⟨fun _ => Or.inl rfl, fun _ => ⟨"Invalid animation data", rfl⟩⟩, fun _ => rfl⟩
  | some j =>
    by_cases hs : isStructuredRecord j = true
    · have hok : ∃ an, analyzeLoopJ j = .ok an := by
        cases j with
        | obj kvs => exact ⟨_, rfl⟩
        | arr xs => exact ⟨_, rfl⟩
        | null => simp [isStructuredRecord] at hs
        | bool b => simp [isStructuredRecord] at hs
        | num n => simp [isStructuredRecord] at hs
        | str s => simp [isStructuredRecord] at hs
      obtain ⟨an, han⟩ := hok
      have hres : optimizeLoop (mkLoopOptimizer cfg) (some j) opts now nd rand =
          .ok (finalize (performLocalOptimizations j an (mergeOptions (mkConfig cfg) opts) now)
            (mergeOptions (mkConfig cfg) opts) rand nd) := by
        simp [optimizeLoop, mkLoopOptimizer, han]
      have hnot : ¬ (some j = none ∨ ∃ j', some j = some j' ∧ isStructuredRecord j' = false) := by
        rintro (hnone | ⟨j', hj', hrec⟩)
        · exact absurd hnone (by simp)
        · obtain rfl : j = j' := by injection hj'
          rw [hs] at hrec
          exact absurd hrec (by simp)
      constructor
      · constructor
        · rintro ⟨e, he⟩
          rw [hres] at he
          exact absurd he (by simp)
        · intro hcontra
          exact absurd hcontra hnot
      · intro hcontra
        exact absurd hcontra hnot
    · have hs' : isStructuredRecord j = false := by
        revert hs
        cases isStructuredRecord j <;> simp
      have herr : optimizeLoop (mkLoopOptimizer cfg) (some j) opts now nd rand =
          .error "Invalid animation data" := by
        simp [optimizeLoop, mkLoopOptimizer, analyzeLoopJ_unstructured j hs']
      exact ⟨⟨fun _ => Or.inr ⟨j, rfl, hs'⟩, fun _ => ⟨_, herr⟩⟩, fun _ => herr⟩

/-- Instantiation of C4's theorem: a numeric animation argument is
rejected with the analyzer's error. -/
theorem optimizeLoop_invalid_witness :
    optimizeLoop (mkLoopOptimizer ⟨none, none⟩) (some (.num 5)) ⟨none, none⟩ "t" "u" 0 =
      .error "Invalid animation data" :=
  (optimizeLoop_invalid ⟨none, none⟩ (some (.num 5)) ⟨none, none⟩ "t" "u" 0).2
    (Or.inr ⟨.num 5, rfl, rfl⟩)

/-- C5: running the whole pipeline with the caller's animation object as
explicit state leaves that state untouched — every write targets the
local deep copy — and the deep copy itself reproduces the animation
exactly. -/
theorem optimizeLoopST_state (self : LoopOptimizerS) (opts : ConfigP) (now nd : String)
    (rand : Nat) (a : Json) :
    ((optimizeLoopST self opts now nd rand).run a).2 = a ∧ deepCopy a = a := by
  refine ⟨?_, deepCopy_eq a⟩
  simp only [optimizeLoopST, analyzeLoopST, performLocalOptimizationsST]
  by_cases hI : self.isInitialized = false
  · rw [if_pos hI]
    rfl
  · rw [if_neg hI]
    cases h : analyzeLoopJ a <;>
      simp [StateT.run, bind, StateT.bind, get, getThe, MonadStateOf.get, StateT.get, pure,
        StateT.pure, h]

/-- Instantiation of C5's theorem on a concrete animation object. -/
theorem optimizeLoopST_state_witness :
    ((optimizeLoopST (mkLoopOptimizer ⟨none, none⟩) ⟨none, none⟩ "t" "u" 0).run
        (Json.obj [])).2 = Json.obj [] ∧ deepCopy (Json.obj []) = Json.obj [] :=
  optimizeLoopST_state (mkLoopOptimizer ⟨none, none⟩) ⟨none, none⟩ "t" "u" 0 (Json.obj [])

/-- C6: with compression disabled the local transformation leaves the
frames field — and every field other than `metadata` — unchanged. -/
theorem performLocalOptimizations_no_compression (a : Json) (an : Analysis) (opts : OptionsR)
    (now : String) (h : opts.enableCompression = false) :
    (performLocalOptimizations a an opts now).getField "frames" = a.getField "frames" ∧
    ∀ k, k ≠ "metadata" →
      (performLocalOptimizations a an opts now).getField k = a.getField k := by
  have key : ∀ k, k ≠ "metadata" →
      (performLocalOptimizations a an opts now).getField k = a.getField k := by
    intro k hk
    simp only [performLocalOptimizations, h, Bool.false_eq_true, and_false, if_false]
    rw [setMetadataFields_getField_ne _ _ _ _ hk, deepCopy_eq]
  exact ⟨key "frames" (by decide), key⟩

/-- Instantiation of C6's theorem on a concrete animation. -/
theorem performLocalOptimizations_no_compression_witness :
    (performLocalOptimizations animW analysisW ⟨8, false⟩ "t").getField "frames" =
      animW.getField "frames" :=
  (performLocalOptimizations_no_compression animW analysisW ⟨8, false⟩ "t" rfl).1

/-- C7 (amended): the reported `frameCount` is the length of the frames
sequence when the `frames` field holds one, `0` when the field is absent
or falsy, the UTF-16 string length when it holds a non-empty string, and
`undefined` for any other truthy non-sequence value.  The claim's
`0` for every non-sequence fails on truthy non-sequences. -/
theorem analyzeLoop_frameCount (j : Json) (an : Analysis)
    (h : analyzeLoop (some j) = .ok an) :
    (∀ xs, j.getField "frames" = some (.arr xs) → an.frameCount = some xs.length) ∧
    (j.getField "frames" = none → an.frameCount = some 0) ∧
    (∀ v, j.getField "frames" = some v → v.truthy = false → an.frameCount = some 0) ∧
    (∀ s, j.getField "frames" = some (.str s) → (Json.str s).truthy = true →
      an.frameCount = some (utf16Length s)) ∧
    (∀ v, j.getField "frames" = some v → v.truthy = true → jsLength v = none →
      an.frameCount = none) := by
  have hfc : an.frameCount = jsLength (framesOrEmpty (j.getField "frames")) := by
    rw [analyzeLoop_ok_elim h]
  refine ⟨?_, ?_, ?_, ?_, ?_⟩
  · intro xs hf
    rw [hfc, hf]
    simp [framesOrEmpty, Json.truthy, jsLength]
  · intro hf
    rw [hfc, hf]
    simp [framesOrEmpty, jsLength]
  · intro v hf hv
    rw [hfc, hf]
    simp [framesOrEmpty, hv, jsLength]
  · intro s hf hv
    rw [hfc, hf]
    simp [framesOrEmpty, hv, jsLength]
  · intro v hf hv hlen
    rw [hfc, hf]
    simp [framesOrEmpty, hv, hlen]

/-- Refutation of C7 as stated: a truthy string `frames` field yields its
string length (2 here), not 0, as the frame count. -/
theorem analyzeLoop_frameCount_cex :
    (analyzeLoop (some (.obj [("frames", .str "ab")]))).map Analysis.frameCount
        = .ok (some 2) ∧
    (some 2 : Option Nat) ≠ some 0 :=
  ⟨rfl, by decide⟩

/-- Instantiation of C7's amended theorem on `animW`. -/
theorem analyzeLoop_frameCount_witness :
    analysisW.frameCount = some (([Json.null, Json.null, Json.null] : List Json).length) :=
  (analyzeLoop_frameCount animW analysisW rfl).1 [Json.null, Json.null, Json.null] rfl

/-- C8 (amended): the reported `duration` is the `duration` field's value
when that field is present and truthy, and `frameCount / 30` when the
field is absent or falsy; the claim's unconditional use of a present
field fails on a falsy field such as `0`. -/
theorem analyzeLoop_duration (j : Json) (an : Analysis)
    (h : analyzeLoop (some j) = .ok an) :
    (∀ v, j.getField "duration" = some v → v.truthy = true → an.duration = .js v) ∧
    (j.getField "duration" = none → an.duration = derivedDuration an.frameCount) ∧
    (∀ v, j.getField "duration" = some v → v.truthy = false →
      an.duration = derivedDuration an.frameCount) := by
  have hfc : an.frameCount = jsLength (framesOrEmpty (j.getField "frames")) := by
    rw [analyzeLoop_ok_elim h]
  have hd := congrArg Analysis.duration (analyzeLoop_ok_elim h)
  refine ⟨?_, ?_, ?_⟩
  · intro v hf hv
    rw [hd, hf]
    simp [hv]
  · intro hf
    rw [hd, hf, hfc]
  · intro v hf hv
    rw [hd, hf, hfc]
    simp [hv]

/-- Refutation of C8 as stated: a present `duration` of 0 with two frames
is reported as 2/30 of a second, not as the field's value 0. -/
theorem analyzeLoop_duration_cex :
    (analyzeLoop (some (.obj [("frames", .arr [.null, .null]), ("duration", .num 0)]))).map
        (fun an => DurVal.asRat an.duration) = .ok (some (((2 : ℕ) : ℚ) / 30)) ∧
    some (((2 : ℕ) : ℚ) / 30) ≠ some (0 : ℚ) := by
  refine ⟨rfl, ?_⟩
  simp

/-- Instantiation of C8's amended theorem on `animW`. -/
theorem analyzeLoop_duration_witness :
    analysisW.duration = .js (.num 1) :=
  (analyzeLoop_duration animW analysisW rfl).1 (.num 1) rfl rfl

/-- C9 (amended): with `s` the length of the animation's serialization in
UTF-16 code units (the JS string length, which is the byte size only for
ASCII serializations), the estimated size reduction is `⌊0.3 * s⌋` and
the potential class is `high` iff `s > 10000`, `medium` iff
`1000 < s ≤ 10000`, `low` otherwise. -/
theorem estimateOptimizationPotential_spec (j : Json) :
    (estimateOptimizationPotential j).estimatedSizeReduction =
      Nat.floor ((3 / 10 : ℚ) * utf16Length (Json.stringify j)) ∧
    ((estimateOptimizationPotential j).sizeReductionPotential = "high" ↔
      10000 < utf16Length (Json.stringify j)) ∧
    ((estimateOptimizationPotential j).sizeReductionPotential = "medium" ↔
      (1000 < utf16Length (Json.stringify j) ∧ utf16Length (Json.stringify j) ≤ 10000)) ∧
    ((estimateOptimizationPotential j).sizeReductionPotential = "low" ↔
      utf16Length (Json.stringify j) ≤ 1000) := by
  rw [floor_three_tenths]
  refine ⟨rfl, ?_, ?_, ?_⟩ <;>
  · simp only [estimateOptimizationPotential]
    by_cases h1 : utf16Length (Json.stringify j) > 10000 <;>
      by_cases h2 : utf16Length (Json.stringify j) > 1000 <;>
      simp [h1, h2] <;> omega

/-- Refutation of C9 as stated: on a record containing a non-ASCII frame
the serialization is 16 UTF-16 units but 17 bytes, and the code's
estimate `⌊0.3 * 16⌋ = 4` differs from the claimed `⌊0.3 * 17⌋ = 5`. -/
theorem estimateOptimizationPotential_bytes_cex :
    (estimateOptimizationPotential (.obj [("frames", .arr [.str "é"])])).estimatedSizeReduction ≠
      Nat.floor ((3 / 10 : ℚ) *
        utf8Len (Json.stringify (.obj [("frames", .arr [.str "é"])]))) := by
  rw [floor_three_tenths]
  decide

/-- Instantiation of C9's amended theorem on the null animation. -/
theorem estimateOptimizationPotential_spec_witness :
    (estimateOptimizationPotential Json.null).estimatedSizeReduction =
      Nat.floor ((3 / 10 : ℚ) * utf16Length (Json.stringify Json.null)) :=
  (estimateOptimizationPotential_spec Json.null).1

/-- C10: with a configuration and per-call options that omit both
recognized keys, the effective options are `quality = 8` and
`enableCompression = true`, and the result of `optimizeLoop` on any
object animation reports `optimizationLevel = 8`. -/
theorem optimizeLoop_defaults (cfg opts : ConfigP)
    (h1 : cfg.quality = none) (h2 : cfg.enableCompression = none)
    (h3 : opts.quality = none) (h4 : opts.enableCompression = none)
    (kvs : List (String × Json)) (now nd : String) (rand : Nat) :
    mergeOptions (mkLoopOptimizer cfg).config opts =
      { quality := 8, enableCompression := true } ∧
    (optimizeLoop (mkLoopOptimizer cfg) (some (.obj kvs)) opts now nd rand).map
      (fun r => r.getField "optimizationLevel") = .ok (some (.num 8)) := by
  have hm : mergeOptions (mkConfig cfg) opts = { quality := 8, enableCompression := true } := by
    simp [mergeOptions, mkConfig, h1, h2, h3, h4]
  refine ⟨hm, ?_⟩
  have han : analyzeLoopJ (.obj kvs) =
      .ok { frameCount := jsLength (framesOrEmpty ((Json.obj kvs).getField "frames")),
            duration :=
              match (Json.obj kvs).getField "duration" with
              | some v =>
                if v.truthy then .js v
                else derivedDuration (jsLength (framesOrEmpty ((Json.obj kvs).getField "frames")))
              | none =>
                derivedDuration (jsLength (framesOrEmpty ((Json.obj kvs).getField "frames"))),
            repetitiveFrames :=
              identifyRepetitiveFrames (framesOrEmpty ((Json.obj kvs).getField "frames")),
            redundantProperties := identifyRedundantProperties (.obj kvs),
            estimatedOptimizationPotential := estimateOptimizationPotential (.obj kvs) } := rfl
  simp only [optimizeLoop, mkLoopOptimizer, han, hm, Bool.true_eq_false, if_false,
    Except.map, finalize, Json.getField, setFieldsList]
  rw [lookupField_setFieldList_ne _ _ _ _ (by decide)]
  rw [lookupField_setFieldList_ne _ _ _ _ (by decide)]
  rw [lookupField_setFieldList_self]

/-- Instantiation of C10's theorem: no configuration, no per-call
options, an empty object animation. -/
theorem optimizeLoop_defaults_witness :
    mergeOptions (mkLoopOptimizer ⟨none, none⟩).config ⟨none, none⟩ =
      { quality := 8, enableCompression := true } ∧
    (optimizeLoop (mkLoopOptimizer ⟨none, none⟩) (some (.obj [])) ⟨none, none⟩ "t" "u" 0).map
      (fun r => r.getField "optimizationLevel") = .ok (some (.num 8)) :=
  optimizeLoop_defaults ⟨none, none⟩ ⟨none, none⟩ rfl rfl rfl rfl [] "t" "u" 0
